import Mathlib

/- Verification of the DNS lookup core of this repository
   (dns_lookup_class.py, with parallel copies of the same functions in
   dns_record.py): domain cleaning (clean_domain), domain validation
   (validate_domain), per-type fetching (fetch_record_type) and the
   aggregation loop (get_dns_records).  The external dnspython resolver
   is modelled as an oracle returning one of four outcomes, matching the
   exception classes the source distinguishes.  Console printing,
   logging and the quiet flag only affect output text and are omitted.
   An explicit trace of the record types for which the resolver is
   invoked is threaded through the aggregation loop so that the
   short-circuit behaviour is observable. -/

/-- The record types known to the tool: the default list in load_config
and the choices accepted on the command line. -/
inductive RecordType where
  | A
  | AAAA
  | CNAME
  | MX
  | NS
  | TXT
  | SOA
deriving DecidableEq

/-- Name of a record type, as interpolated into dictionary keys. -/
def RecordType.name : RecordType → String
  | .A => "A"
  | .AAAA => "AAAA"
  | .CNAME => "CNAME"
  | .MX => "MX"
  | .NS => "NS"
  | .TXT => "TXT"
  | .SOA => "SOA"

/-- Key used in the aggregated dictionary: the type name followed by
the literal suffix _Records. -/
def recordKey (rt : RecordType) : String := rt.name ++ "_Records"

/-- Default record type list from load_config. -/
def defaultRecordTypes : List RecordType :=
  [.A, .AAAA, .CNAME, .MX, .NS, .TXT, .SOA]

/-- Raw SOA answer fields read by fetch_record_type. -/
structure SOAData where
  mname : String
  rname : String
  serial : Nat
  refresh : Nat
  retry : Nat
  expire : Nat
  minimum : Nat
deriving DecidableEq

/-- Payload carried by a successful resolver answer for each record
type: MX answers expose the pair (preference, exchange text), SOA
answers expose the seven SOA fields, every other type is read through
its textual form. -/
def RawRecordData : RecordType → Type
  | .MX => Nat × String
  | .SOA => SOAData
  | _ => String

/-- Outcome of one resolver call, mirroring the except clauses of
fetch_record_type: an answer, NXDOMAIN, NoAnswer, or any other
exception. -/
inductive ResolveOutcome (α : Type) where
  | success (records : List α)
  | nxdomain
  | noAnswer
  | fault

def ResolveOutcome.isNXDOMAIN {α : Type} : ResolveOutcome α → Bool
  | .nxdomain => true
  | _ => false

def ResolveOutcome.isNoAnswer {α : Type} : ResolveOutcome α → Bool
  | .noAnswer => true
  | _ => false

def ResolveOutcome.isFault {α : Type} : ResolveOutcome α → Bool
  | .fault => true
  | _ => false

/-- The external resolver capability, as used by fetch_record_type via
resolve(website, record_type). -/
abbrev Resolver := String → (rt : RecordType) → ResolveOutcome (RawRecordData rt)

/-- A decoded record as stored in the aggregated dictionary. -/
inductive DecodedRecord where
  | txt (value : String)
  | mxRec (priority : Nat) (exchange : String)
  | soaRec (mname rname : String) (serial refresh retry expire minimum : Nat)
deriving DecidableEq

/-- Per-type decoding done inside fetch_record_type. -/
def decodeOne : (rt : RecordType) → RawRecordData rt → DecodedRecord
  | .A, t => .txt t
  | .AAAA, t => .txt t
  | .CNAME, t => .txt t
  | .MX, r => .mxRec r.1 r.2
  | .NS, t => .txt t
  | .TXT, t => .txt t
  | .SOA, r => .soaRec r.mname r.rname r.serial r.refresh r.retry r.expire r.minimum

/-- fetch_record_type: None on NXDOMAIN, an empty list on NoAnswer, an
empty list on any other resolver fault, the decoded records on
success. -/
def fetch_record_type (resolver : Resolver) (website : String)
    (record_type : RecordType) : Option (List DecodedRecord) :=
  match resolver website record_type with
  | .success records => some (records.map (decodeOne record_type))
  | .nxdomain => none
  | .noAnswer => some []
  | .fault => some []

/-- Value recorded for a type whose fetch did not abort. -/
def fetchVal (resolver : Resolver) (website : String) (rt : RecordType) :
    List DecodedRecord :=
  (fetch_record_type resolver website rt).getD []

/-- Whitespace characters stripped by the strip step (ASCII portion). -/
def isPySpace (c : Char) : Bool :=
  c == ' ' || c == '\t' || c == '\n' || c == '\r' ||
    c == Char.ofNat 11 || c == Char.ofNat 12

/-- Leading and trailing whitespace removal. -/
def pyStrip (l : List Char) : List Char :=
  ((l.dropWhile isPySpace).reverse.dropWhile isPySpace).reverse

/-- Blind replacement of http:// by the empty string: delete every
left-to-right non-overlapping occurrence. -/
def replaceHttp : List Char → List Char
  | c1 :: c2 :: c3 :: c4 :: c5 :: c6 :: c7 :: rest =>
    if c1 == 'h' && c2 == 't' && c3 == 't' && c4 == 'p' &&
        c5 == ':' && c6 == '/' && c7 == '/' then
      replaceHttp rest
    else
      c1 :: replaceHttp (c2 :: c3 :: c4 :: c5 :: c6 :: c7 :: rest)
  | l => l

/-- Blind replacement of https:// by the empty string: delete every
left-to-right non-overlapping occurrence. -/
def replaceHttps : List Char → List Char
  | c1 :: c2 :: c3 :: c4 :: c5 :: c6 :: c7 :: c8 :: rest =>
    if c1 == 'h' && c2 == 't' && c3 == 't' && c4 == 'p' && c5 == 's' &&
        c6 == ':' && c7 == '/' && c8 == '/' then
      replaceHttps rest
    else
      c1 :: replaceHttps (c2 :: c3 :: c4 :: c5 :: c6 :: c7 :: c8 :: rest)
  | l => l

/-- Blind replacement of the four characters of www-dot by the empty
string: delete every left-to-right non-overlapping occurrence, anywhere
in the string. -/
def replaceWww : List Char → List Char
  | [] => []
  | [c1] => [c1]
  | [c1, c2] => [c1, c2]
  | [c1, c2, c3] => [c1, c2, c3]
  | c1 :: c2 :: c3 :: c4 :: rest =>
    if c1 == 'w' && c2 == 'w' && c3 == 'w' && c4 == '.' then
      replaceWww rest
    else
      c1 :: replaceWww (c2 :: c3 :: c4 :: rest)

/-- Number of occurrences deleted by replaceWww: left-to-right,
non-overlapping, counted on the original string. -/
def countWww : List Char → Nat
  | [] => 0
  | [_] => 0
  | [_, _] => 0
  | [_, _, _] => 0
  | c1 :: c2 :: c3 :: c4 :: rest =>
    if c1 == 'w' && c2 == 'w' && c3 == 'w' && c4 == '.' then
      countWww rest + 1
    else
      countWww (c2 :: c3 :: c4 :: rest)

/-- Modelled from the claim wording, for comparison only: removal of
just the FIRST occurrence of the www-dot substring.  This is not what
the source does. -/
def removeFirstWww : List Char → List Char
  | [] => []
  | [c1] => [c1]
  | [c1, c2] => [c1, c2]
  | [c1, c2, c3] => [c1, c2, c3]
  | c1 :: c2 :: c3 :: c4 :: rest =>
    if c1 == 'w' && c2 == 'w' && c3 == 'w' && c4 == '.' then
      rest
    else
      c1 :: removeFirstWww (c2 :: c3 :: c4 :: rest)

/-- Body of clean_domain on the character list of a truthy input: strip
whitespace, delete the scheme prefixes, delete www-dot occurrences,
truncate at the first slash. -/
def clean_core (l : List Char) : List Char :=
  (replaceWww (replaceHttps (replaceHttp (pyStrip l)))).takeWhile (fun c => c != '/')

/-- clean_domain: a falsy input (None or the empty string) is returned
unchanged. -/
def clean_domain : Option String → Option String
  | none => none
  | some s => if s.data.isEmpty then some s else some (String.mk (clean_core s.data))

/-- Character class of alphanumeric ASCII characters used by the
validation pattern. -/
def isAlnum (c : Char) : Bool :=
  (decide ('a' ≤ c) && decide (c ≤ 'z')) ||
    (decide ('A' ≤ c) && decide (c ≤ 'Z')) ||
    (decide ('0' ≤ c) && decide (c ≤ '9'))

/-- Character class of alphanumeric ASCII characters and the hyphen. -/
def isLabelChar (c : Char) : Bool := isAlnum c || c == '-'

/-- Split a character list at every dot, keeping empty chunks. -/
def splitDot : List Char → List (List Char)
  | [] => [[]]
  | c :: rest =>
    if c == '.' then [] :: splitDot rest
    else
      match splitDot rest with
      | [] => [[c]]
      | g :: gs => (c :: g) :: gs

/-- One chunk fully matches the label sub-pattern of the validation
regex: an alphanumeric character, optionally followed by at most 61
label characters and a final alphanumeric character. -/
def labelMatches : List Char → Bool
  | [] => false
  | c :: rest =>
    isAlnum c &&
      (rest.isEmpty ||
        (decide (rest.length ≤ 62) && rest.dropLast.all isLabelChar &&
          rest.getLast?.elim false isAlnum))

/-- The whole pattern body, a label followed by any number of
dot-label groups: since a dot cannot occur inside a label, a match is
exactly a decomposition into dot-separated chunks, each fully matching
the label sub-pattern. -/
def domainRegexBody (l : List Char) : Bool := (splitDot l).all labelMatches

/-- Anchored regex test on a string: the match starts at the beginning,
and the final dollar anchor matches at the end of the string or just
before one string-final newline. -/
def reMatchDomain (s : String) : Bool :=
  domainRegexBody s.data ||
    (s.data.getLast?.elim false (fun c => c == '\n') && domainRegexBody s.data.dropLast)

/-- validate_domain: false for None, for the empty string and for a
length over 253, otherwise the regex test. -/
def validate_domain : Option String → Bool
  | none => false
  | some d =>
    if d.data.isEmpty || decide (253 < d.length) then false
    else reMatchDomain d

/-- Label grammar as stated by the specification: 1 to 63 characters,
alphanumeric with optional interior hyphens, first and last character
alphanumeric. -/
def specLabelOK (l : List Char) : Bool :=
  decide (1 ≤ l.length) && decide (l.length ≤ 63) && l.all isLabelChar &&
    l.head?.elim false isAlnum && l.getLast?.elim false isAlnum

/-- Domain grammar as stated by the specification: one or more
dot-separated labels, no empty labels. -/
def specGrammar (l : List Char) : Bool := (splitDot l).all specLabelOK

/-- Aggregated result: an insertion-ordered dictionary modelled as an
association list. -/
abbrev DNSDict := List (String × List DecodedRecord)

/-- Dictionary assignment: overwrite in place if the key is present,
otherwise append at the end. -/
def dictInsert (m : DNSDict) (k : String) (v : List DecodedRecord) : DNSDict :=
  if m.any (fun p => p.1 == k) then
    m.map (fun p => if p.1 == k then (k, v) else p)
  else
    m ++ [(k, v)]

/-- The per-type loop of get_dns_records, also returning the trace of
record types for which the resolver was invoked.  The Bool argument is
the domain_exists flag.  A None fetch result aborts the loop with the
failure value; an empty fetch result records an empty list and keeps
the flag; a non-empty fetch result records it and sets the flag. -/
def runTypes (resolver : Resolver) (website : String) :
    List RecordType → DNSDict → Bool → Option (DNSDict × Bool) × List RecordType
  | [], dns_record, domain_exists => (some (dns_record, domain_exists), [])
  | rt :: rest, dns_record, domain_exists =>
    match fetch_record_type resolver website rt with
    | none => (none, [rt])
    | some result =>
      if result.isEmpty then
        match runTypes resolver website rest
            (dictInsert dns_record (recordKey rt) []) domain_exists with
        | (res, tr) => (res, rt :: tr)
      else
        match runTypes resolver website rest
            (dictInsert dns_record (recordKey rt) result) true with
        | (res, tr) => (res, rt :: tr)

/-- Effective record type list: a falsy record_types argument (None or
the empty list) selects the configured default list. -/
def effectiveTypes (cfgTypes : List RecordType) : Option (List RecordType) → List RecordType
  | none => cfgTypes
  | some l => if l.isEmpty then cfgTypes else l

/-- get_dns_records with the resolver-call trace: clean the domain,
validate it (an invalid domain yields the failure value before any
resolver call), then run the per-type loop. -/
def get_dns_records_t (resolver : Resolver) (cfgTypes : List RecordType)
    (website : Option String) (record_types : Option (List RecordType)) :
    Option (DNSDict × Bool) × List RecordType :=
  match clean_domain website with
  | none => (none, [])
  | some wd =>
    if validate_domain (some wd) then
      runTypes resolver wd (effectiveTypes cfgTypes record_types) [] false
    else
      (none, [])

/-- Result of get_dns_records together with the final domain_exists
flag, the only signal separating the Found and FoundEmpty outcomes. -/
def get_dns_records_full (resolver : Resolver) (cfgTypes : List RecordType)
    (website : Option String) (record_types : Option (List RecordType)) :
    Option (DNSDict × Bool) :=
  (get_dns_records_t resolver cfgTypes website record_types).1

/-- Return value of get_dns_records: the aggregated dictionary, or None
both on an invalid domain and on NXDOMAIN. -/
def get_dns_records (resolver : Resolver) (cfgTypes : List RecordType)
    (website : Option String) (record_types : Option (List RecordType)) :
    Option DNSDict :=
  (get_dns_records_full resolver cfgTypes website record_types).map Prod.fst

/-- Concrete resolver answering NoAnswer for every type. -/
def noAnswerResolver : Resolver := fun _ _ => .noAnswer

/-- Concrete resolver reporting NXDOMAIN for AAAA and NoAnswer for
every other type. -/
def nxOnAAAAResolver : Resolver := fun _ rt =>
  match rt with
  | .AAAA => .nxdomain
  | _ => .noAnswer

/-- Concrete resolver reporting NXDOMAIN for every type. -/
def nxResolver : Resolver := fun _ _ => .nxdomain

/-- fetch_record_type yields the failure value exactly on NXDOMAIN. -/
theorem fetch_eq_none_iff (r : Resolver) (w : String) (rt : RecordType) :
    fetch_record_type r w rt = none ↔ (r w rt).isNXDOMAIN = true := by
  cases h : r w rt <;> simp [fetch_record_type, h, ResolveOutcome.isNXDOMAIN]

/-- Inserting a fresh key appends the binding at the end. -/
theorem dictInsert_fresh (m : DNSDict) (k : String) (v : List DecodedRecord)
    (h : ∀ p ∈ m, p.1 ≠ k) : dictInsert m k v = m ++ [(k, v)] := by
  have hany : m.any (fun p => p.1 == k) = false := by
    rw [List.any_eq_false]
    intro p hp
    simpa using h p hp
  rw [dictInsert, hany]
  simp

/-- Every binding after an insertion is an old binding or the inserted
one. -/
theorem mem_dictInsert (m : DNSDict) (k : String) (v : List DecodedRecord)
    (p : String × List DecodedRecord) (h : p ∈ dictInsert m k v) :
    p ∈ m ∨ p = (k, v) := by
  rw [dictInsert] at h
  split at h
  · obtain ⟨q, hq, hqe⟩ := List.mem_map.mp h
    by_cases hk : q.1 == k
    · rw [if_pos hk] at hqe
      exact Or.inr hqe.symm
    · rw [if_neg hk] at hqe
      exact Or.inl (hqe ▸ hq)
  · rcases List.mem_append.mp h with h1 | h2
    · exact Or.inl h1
    · exact Or.inr (by simpa using h2)

/-- Distinct record types produce distinct dictionary keys. -/
theorem recordKey_injective : Function.Injective recordKey := by
  intro a b h
  cases a <;> cases b <;> first | rfl | (exfalso; revert h; decide)

/-- If every type before some position succeeds and the type at that
position hits NXDOMAIN, the loop stops right there: the failure value is
returned and the trace ends at the aborting type. -/
theorem runTypes_append_nxdomain (r : Resolver) (w : String) (t : RecordType)
    (post : List RecordType) (ht : (r w t).isNXDOMAIN = true) :
    ∀ (pre : List RecordType) (acc : DNSDict) (ex : Bool),
      (∀ u ∈ pre, (r w u).isNXDOMAIN = false) →
      runTypes r w (pre ++ t :: post) acc ex = (none, pre ++ [t]) := by
  intro pre
  induction pre with
  | nil =>
    intro acc ex _
    have hf : fetch_record_type r w t = none := (fetch_eq_none_iff r w t).mpr ht
    simp [runTypes, hf]
  | cons u pre ih =>
    intro acc ex hpre
    have hu : (r w u).isNXDOMAIN = false := hpre u (by simp)
    cases hfe : fetch_record_type r w u with
    | none =>
      rw [fetch_eq_none_iff] at hfe
      rw [hu] at hfe
      exact absurd hfe (by simp)
    | some rs =>
      have hrec : ∀ v ∈ pre, (r w v).isNXDOMAIN = false := fun v hv => hpre v (by simp [hv])
      by_cases he : rs.isEmpty
      · have h1 := ih (dictInsert acc (recordKey u) []) ex hrec
        simp [runTypes, hfe, he, h1]
      · have h1 := ih (dictInsert acc (recordKey u) rs) true hrec
        simp [runTypes, hfe, he, h1]

/-- A loop run that produced a dictionary issued no NXDOMAIN fetch. -/
theorem runTypes_some_fetch (r : Resolver) (w : String) :
    ∀ (ts : List RecordType) (acc : DNSDict) (ex : Bool) (q : DNSDict × Bool)
      (tr : List RecordType),
      runTypes r w ts acc ex = (some q, tr) →
      ∀ rt ∈ ts, fetch_record_type r w rt ≠ none := by
  intro ts
  induction ts with
  | nil =>
    intro acc ex q tr _ rt hrt
    simp at hrt
  | cons u ts ih =>
    intro acc ex q tr h rt hrt
    cases hfe : fetch_record_type r w u with
    | none => simp [runTypes, hfe] at h
    | some rs =>
      rcases List.mem_cons.mp hrt with rfl | hmem
      · simp [hfe]
      · simp only [runTypes, hfe] at h
        by_cases he : rs.isEmpty
        · rw [if_pos he] at h
          cases hrun : runTypes r w ts (dictInsert acc (recordKey u) []) ex with
          | mk res tr0 =>
            rw [hrun] at h
            simp only [Prod.mk.injEq] at h
            exact ih _ ex q tr0 (by rw [hrun, h.1]) rt hmem
        · rw [if_neg he] at h
          cases hrun : runTypes r w ts (dictInsert acc (recordKey u) rs) true with
          | mk res tr0 =>
            rw [hrun] at h
            simp only [Prod.mk.injEq] at h
            exact ih _ true q tr0 (by rw [hrun, h.1]) rt hmem

/-- Shape of a completed loop run over fresh, duplicate-free keys: the
final dictionary extends the accumulator with one binding per requested
type, in request order; the final flag records whether any fetched list
was non-empty; every requested type is traced. -/
theorem runTypes_total (r : Resolver) (w : String) :
    ∀ (ts : List RecordType) (acc : DNSDict) (ex : Bool),
      (∀ rt ∈ ts, fetch_record_type r w rt ≠ none) →
      (ts.map recordKey).Nodup →
      (∀ rt ∈ ts, ∀ p ∈ acc, p.1 ≠ recordKey rt) →
      runTypes r w ts acc ex =
        (some (acc ++ ts.map (fun rt => (recordKey rt, fetchVal r w rt)),
            ex || ts.any (fun rt => !(fetchVal r w rt).isEmpty)), ts) := by
  intro ts
  induction ts with
  | nil =>
    intro acc ex _ _ _
    simp [runTypes]
  | cons u ts ih =>
    intro acc ex hfetch hnodup hfresh
    cases hfe : fetch_record_type r w u with
    | none => exact absurd hfe (hfetch u (by simp))
    | some rs =>
      have hval : fetchVal r w u = rs := by simp [fetchVal, hfe]
      have hfr : ∀ p ∈ acc, p.1 ≠ recordKey u := hfresh u (by simp)
      rw [List.map_cons] at hnodup
      have hcons := List.nodup_cons.mp hnodup
      have hfetch2 : ∀ rt ∈ ts, fetch_record_type r w rt ≠ none :=
        fun rt h => hfetch rt (by simp [h])
      have hfresh2 : ∀ v, ∀ rt ∈ ts, ∀ p ∈ acc ++ [(recordKey u, v)], p.1 ≠ recordKey rt := by
        intro v rt hrt p hp
        rcases List.mem_append.mp hp with h1 | h2
        · exact hfresh rt (by simp [hrt]) p h1
        · have hpe : p = (recordKey u, v) := by simpa using h2
          rw [hpe]
          intro hcontr
          have hmem : recordKey rt ∈ List.map recordKey ts := List.mem_map_of_mem recordKey hrt
          rw [← hcontr] at hmem
          exact hcons.1 hmem
      cases rs with
      | nil =>
        have hacc2 : dictInsert acc (recordKey u) [] = acc ++ [(recordKey u, [])] :=
          dictInsert_fresh acc (recordKey u) [] hfr
        have h1 := ih (acc ++ [(recordKey u, [])]) ex hfetch2 hcons.2 (hfresh2 [])
        simp [runTypes, hfe, hacc2, h1, hval]
      | cons a as =>
        have hacc2 : dictInsert acc (recordKey u) (a :: as) = acc ++ [(recordKey u, a :: as)] :=
          dictInsert_fresh acc (recordKey u) (a :: as) hfr
        have h1 := ih (acc ++ [(recordKey u, a :: as)]) true hfetch2 hcons.2 (hfresh2 (a :: as))
        simp [runTypes, hfe, hacc2, h1, hval]

/-- The domain_exists flag never goes back from true to false. -/
theorem runTypes_flag_true (r : Resolver) (w : String) :
    ∀ (ts : List RecordType) (acc : DNSDict) (d : DNSDict) (ex2 : Bool)
      (tr : List RecordType),
      runTypes r w ts acc true = (some (d, ex2), tr) → ex2 = true := by
  intro ts
  induction ts with
  | nil =>
    intro acc d ex2 tr h
    simp [runTypes] at h
    exact h.1.2
  | cons u ts ih =>
    intro acc d ex2 tr h
    cases hfe : fetch_record_type r w u with
    | none => simp [runTypes, hfe] at h
    | some rs =>
      simp only [runTypes, hfe] at h
      by_cases he : rs.isEmpty
      · rw [if_pos he] at h
        cases hrun : runTypes r w ts (dictInsert acc (recordKey u) []) true with
        | mk res tr0 =>
          rw [hrun] at h
          simp only [Prod.mk.injEq] at h
          exact ih _ d ex2 tr0 (by rw [hrun, h.1])
      · rw [if_neg he] at h
        cases hrun : runTypes r w ts (dictInsert acc (recordKey u) rs) true with
        | mk res tr0 =>
          rw [hrun] at h
          simp only [Prod.mk.injEq] at h
          exact ih _ d ex2 tr0 (by rw [hrun, h.1])

/-- If every non-empty binding of the accumulator forced the flag, then
every non-empty binding of the final dictionary forces the final flag:
a non-empty list in the result implies domain_exists ended up true. -/
theorem runTypes_nonempty_flag (r : Resolver) (w : String) :
    ∀ (ts : List RecordType) (acc : DNSDict) (ex : Bool) (d : DNSDict) (ex2 : Bool)
      (tr : List RecordType),
      runTypes r w ts acc ex = (some (d, ex2), tr) →
      (∀ p ∈ acc, p.2 ≠ [] → ex = true) →
      ∀ p ∈ d, p.2 ≠ [] → ex2 = true := by
  intro ts
  induction ts with
  | nil =>
    intro acc ex d ex2 tr h hacc p hp hpne
    simp [runTypes] at h
    obtain ⟨⟨hd, hex⟩, _⟩ := h
    subst hd
    subst hex
    exact hacc p hp hpne
  | cons u ts ih =>
    intro acc ex d ex2 tr h hacc p hp hpne
    cases hfe : fetch_record_type r w u with
    | none => simp [runTypes, hfe] at h
    | some rs =>
      simp only [runTypes, hfe] at h
      by_cases he : rs.isEmpty
      · rw [if_pos he] at h
        cases hrun : runTypes r w ts (dictInsert acc (recordKey u) []) ex with
        | mk res tr0 =>
          rw [hrun] at h
          simp only [Prod.mk.injEq] at h
          have hacc2 : ∀ q ∈ dictInsert acc (recordKey u) [], q.2 ≠ [] → ex = true := by
            intro q hq hqne
            rcases mem_dictInsert acc (recordKey u) [] q hq with h1 | h2
            · exact hacc q h1 hqne
            · rw [h2] at hqne
              exact absurd rfl hqne
          exact ih _ ex d ex2 tr0 (by rw [hrun, h.1]) hacc2 p hp hpne
      · rw [if_neg he] at h
        cases hrun : runTypes r w ts (dictInsert acc (recordKey u) rs) true with
        | mk res tr0 =>
          rw [hrun] at h
          simp only [Prod.mk.injEq] at h
          exact runTypes_flag_true r w ts _ d ex2 tr0 (by rw [hrun, h.1])

/-- Alphanumeric characters are label characters. -/
theorem isLabelChar_of_isAlnum (c : Char) (h : isAlnum c = true) :
    isLabelChar c = true := by
  simp [isLabelChar, h]

/-- The label sub-pattern of the regex accepts exactly the labels of
the grammar stated by the specification. -/
theorem labelMatches_eq_specLabelOK (l : List Char) :
    labelMatches l = specLabelOK l := by
  cases l with
  | nil => rfl
  | cons c m =>
    cases m with
    | nil =>
      cases hc : isAlnum c <;>
        simp [labelMatches, specLabelOK, isLabelChar, hc]
    | cons d m0 =>
      have hne : d :: m0 ≠ [] := by simp
      have heq : d :: m0 = (d :: m0).dropLast ++ [(d :: m0).getLast hne] :=
        (List.dropLast_append_getLast hne).symm
      generalize hA : (d :: m0).dropLast = A at heq
      generalize ha : (d :: m0).getLast hne = a at heq
      rw [labelMatches, specLabelOK, heq]
      rw [show c :: (A ++ [a]) = (c :: A) ++ [a] from (List.cons_append c A [a]).symm]
      have h1 : (A ++ [a]).isEmpty = false := by cases A <;> rfl
      have h2 : (A ++ [a]).dropLast = A := List.dropLast_concat
      have h3 : (A ++ [a]).getLast? = some a := List.getLast?_concat A
      have h4 : ((c :: A) ++ [a]).getLast? = some a := List.getLast?_concat (c :: A)
      have h5 : (c :: A ++ [a]).head? = some c := rfl
      rw [h1, h2, h3, h4, h5]
      simp only [Option.elim, List.length_append, List.length_cons, List.length_nil,
        List.all_cons, List.all_append, List.all_nil, Bool.false_or, Bool.and_true]
      have e0 : decide (1 ≤ A.length + 1 + (0 + 1)) = true := by simp
      have e1 : decide (A.length + (0 + 1) ≤ 62) = decide (A.length + 1 + (0 + 1) ≤ 63) := by
        rw [decide_eq_decide]
        omega
      rw [e0, e1, Bool.true_and]
      cases hc : isAlnum c
      · simp
      · cases haa : isAlnum a
        · simp
        · rw [isLabelChar_of_isAlnum c hc, isLabelChar_of_isAlnum a haa]
          cases hall : A.all isLabelChar <;>
            cases hd62 : decide (A.length + 1 + (0 + 1) ≤ 63) <;> simp

/-- Chunk-wise transfer of the label equivalence. -/
theorem all_labelMatches_eq (gs : List (List Char)) :
    gs.all labelMatches = gs.all specLabelOK := by
  induction gs with
  | nil => rfl
  | cons g gs ih => simp [List.all_cons, labelMatches_eq_specLabelOK g, ih]

/-- The regex body test coincides with the grammar stated by the
specification. -/
theorem domainRegexBody_eq_specGrammar (l : List Char) :
    domainRegexBody l = specGrammar l := by
  rw [domainRegexBody, specGrammar, all_labelMatches_eq]

/-- Full characterization of validate_domain on a present string: true
exactly when the length is at most 253 and the string, or the string
less one trailing newline, satisfies the label grammar. -/
theorem validate_characterization (d : String) :
    validate_domain (some d) = true ↔
      d.length ≤ 253 ∧
        (specGrammar d.data = true ∨
          ∃ b : List Char, d.data = b ++ ['\n'] ∧ specGrammar b = true) := by
  rw [validate_domain]
  by_cases hlen : 253 < d.length
  · simp [hlen]
  · have hlen' : d.length ≤ 253 := by omega
    by_cases hemp : d.data.isEmpty
    · have hd : d.data = [] := by
        cases hl : d.data with
        | nil => rfl
        | cons x xs => rw [hl] at hemp; simp at hemp
      simp only [hemp, Bool.true_or, if_true]
      constructor
      · intro hcontr
        exact absurd hcontr (by simp)
      · rintro ⟨_, h2 | ⟨b, hb, _⟩⟩
        · rw [hd] at h2
          exact absurd h2 (by decide)
        · rw [hd] at hb
          exact absurd hb.symm (by simp)
    · have hemp' : d.data.isEmpty = false := by
        cases he : d.data.isEmpty
        · rfl
        · exact absurd he hemp
      simp only [hemp', hlen, decide_eq_true_eq, Bool.false_or, decide_eq_false_iff_not,
        not_lt, if_neg, Bool.or_eq_true, Bool.false_eq_true, or_false]
      rw [if_neg (by simp [hemp', hlen])]
      rw [reMatchDomain, domainRegexBody_eq_specGrammar, domainRegexBody_eq_specGrammar]
      simp only [Bool.or_eq_true, Bool.and_eq_true, hlen', true_and]
      constructor
      · rintro (h | ⟨hnl, hb⟩)
        · exact Or.inl h
        · have hne : d.data ≠ [] := by
            intro hc
            rw [hc] at hnl
            simp at hnl
          have hgl : d.data.getLast? = some (d.data.getLast hne) :=
            List.getLast?_eq_getLast d.data hne
          rw [hgl] at hnl
          simp at hnl
          refine Or.inr ⟨d.data.dropLast, ?_, hb⟩
          rw [← hnl]
          exact (List.dropLast_append_getLast hne).symm
      · rintro (h | ⟨b, hb, hbs⟩)
        · exact Or.inl h
        · refine Or.inr ⟨?_, ?_⟩
          · rw [hb]
            simp [List.getLast?_concat]
          · rw [hb, List.dropLast_concat]
            exact hbs

/-- Every left-to-right non-overlapping occurrence is deleted: the
result is exactly four characters shorter per counted occurrence. -/
theorem replaceWww_length : ∀ (l : List Char),
    (replaceWww l).length + 4 * countWww l = l.length
  | [] => by simp [replaceWww, countWww]
  | [c1] => by simp [replaceWww, countWww]
  | [c1, c2] => by simp [replaceWww, countWww]
  | [c1, c2, c3] => by simp [replaceWww, countWww]
  | c1 :: c2 :: c3 :: c4 :: rest => by
    have ih1 := replaceWww_length rest
    have ih2 := replaceWww_length (c2 :: c3 :: c4 :: rest)
    by_cases h : (c1 == 'w' && c2 == 'w' && c3 == 'w' && c4 == '.') = true
    · simp only [replaceWww, countWww, h, if_true]
      simp only [List.length_cons] at ih1 ⊢
      omega
    · simp only [replaceWww, countWww, if_neg h]
      simp only [List.length_cons] at ih2 ⊢
      omega

/-- An input whose cleaned form fails validation yields the failure
value with an empty resolver-call trace. -/
theorem get_none_of_invalid (r : Resolver) (cfg : List RecordType)
    (website : Option String) (rts : Option (List RecordType))
    (h : validate_domain (clean_domain website) = false) :
    get_dns_records_t r cfg website rts = (none, []) := by
  cases hc : clean_domain website with
  | none => simp [get_dns_records_t, hc]
  | some wd =>
    rw [hc] at h
    simp [get_dns_records_t, hc, h]

/-- A valid domain whose resolver reports NXDOMAIN at some requested
position (with no earlier NXDOMAIN) yields the failure value, and the
trace stops at the aborting type. -/
theorem get_none_of_nxdomain (r : Resolver) (cfg : List RecordType)
    (website : Option String) (rts : Option (List RecordType)) (wd : String)
    (pre post : List RecordType) (t : RecordType)
    (hclean : clean_domain website = some wd)
    (hval : validate_domain (some wd) = true)
    (heff : effectiveTypes cfg rts = pre ++ t :: post)
    (hpre : ∀ u ∈ pre, (r wd u).isNXDOMAIN = false)
    (ht : (r wd t).isNXDOMAIN = true) :
    get_dns_records_t r cfg website rts = (none, pre ++ [t]) := by
  have hrun := runTypes_append_nxdomain r wd t post ht pre [] false hpre
  simp [get_dns_records_t, hclean, hval, heff, hrun]

/-- The plain return value is the first component of the traced run. -/
theorem get_eq_of_t (r : Resolver) (cfg : List RecordType)
    (website : Option String) (rts : Option (List RecordType))
    (q : Option (DNSDict × Bool)) (tr : List RecordType)
    (h : get_dns_records_t r cfg website rts = (q, tr)) :
    get_dns_records r cfg website rts = q.map Prod.fst := by
  rw [get_dns_records, get_dns_records_full, h]

/-- Claim C1: if the resolver reports the domain-absent condition
(NXDOMAIN) for a requested record type, no earlier requested type having
reported it, the aggregation aborts immediately: the resolver-call trace
stops at the aborting type, so no resolve call is issued for any later
record type in the requested order, and get_dns_records reports the
failure value None for the whole lookup rather than a partial mapping. -/
theorem claim1_nxdomain_short_circuit (r : Resolver) (cfg : List RecordType)
    (website : Option String) (rts : Option (List RecordType)) (wd : String)
    (pre post : List RecordType) (t : RecordType)
    (hclean : clean_domain website = some wd)
    (hval : validate_domain (some wd) = true)
    (heff : effectiveTypes cfg rts = pre ++ t :: post)
    (hpre : ∀ u ∈ pre, (r wd u).isNXDOMAIN = false)
    (ht : (r wd t).isNXDOMAIN = true) :
    get_dns_records_t r cfg website rts = (none, pre ++ [t]) ∧
      get_dns_records r cfg website rts = none := by
  have hmain := get_none_of_nxdomain r cfg website rts wd pre post t hclean hval heff hpre ht
  exact ⟨hmain, get_eq_of_t r cfg website rts none (pre ++ [t]) hmain⟩

/-- Claim C1 witness: with a resolver that reports NXDOMAIN for AAAA
and NoAnswer otherwise, requesting A, AAAA, MX traces only A and AAAA
and returns the failure value. -/
theorem claim1_witness :
    get_dns_records_t nxOnAAAAResolver defaultRecordTypes (some "example.com")
        (some [.A, .AAAA, .MX]) = (none, [.A, .AAAA]) ∧
      get_dns_records nxOnAAAAResolver defaultRecordTypes (some "example.com")
        (some [.A, .AAAA, .MX]) = none :=
  claim1_nxdomain_short_circuit nxOnAAAAResolver defaultRecordTypes
    (some "example.com") (some [.A, .AAAA, .MX]) "example.com" [.A] [.MX] .AAAA
    (by decide) (by decide) (by decide) (by decide) (by decide)

/-- Claim C2 counterexample: the claim asserts that validate accepts
exactly the strings of the label grammar, and in particular rejects
every string with a non-alphanumeric label-boundary character; yet the
code accepts a grammatical domain followed by one trailing newline. -/
theorem claim2_counterexample :
    validate_domain (some "google.com\n") = true ∧
      specGrammar ("google.com\n").data = false := by decide

/-- Claim C2 (amended): validate(domain) is true if and only if the
domain is a string of length at most 253 that either matches the label
grammar of the specification, or is a grammar-matching string followed
by exactly one trailing newline (an artifact of the dollar anchor of
the anchored regex match); the None and empty inputs and all enumerated
bad shapes without a trailing newline still fail. -/
theorem claim2_amended_validate_iff (d : String) :
    validate_domain (some d) = true ↔
      d.length ≤ 253 ∧
        (specGrammar d.data = true ∨
          ∃ b : List Char, d.data = b ++ ['\n'] ∧ specGrammar b = true) :=
  validate_characterization d

/-- Claim C3: clean applies the www-strip before path-truncation, so
the scheme-stripped google input loses its www prefix, and the github
input keeps only the host part before the first slash. -/
theorem claim3_clean_literals :
    clean_domain (some "http://www.google.com") = some "google.com" ∧
      clean_domain (some "https://github.com/user/repo") = some "github.com" := by
  decide

/-- Claim C4: if the cleaned domain fails validation, the lookup reports
the failure value without issuing any resolver call: the traced run is
(None, []) and the plain return value is None. -/
theorem claim4_invalid_no_resolver_call (r : Resolver) (cfg : List RecordType)
    (website : Option String) (rts : Option (List RecordType))
    (h : validate_domain (clean_domain website) = false) :
    get_dns_records_t r cfg website rts = (none, []) ∧
      get_dns_records r cfg website rts = none := by
  have hmain := get_none_of_invalid r cfg website rts h
  exact ⟨hmain, get_eq_of_t r cfg website rts none [] hmain⟩

/-- Claim C4 witness: a concrete invalid input is rejected with an empty
resolver-call trace. -/
theorem claim4_witness :
    validate_domain (clean_domain (some "bad!domain")) = false ∧
      get_dns_records_t noAnswerResolver defaultRecordTypes (some "bad!domain") none =
        (none, []) ∧
      get_dns_records noAnswerResolver defaultRecordTypes (some "bad!domain") none = none :=
  ⟨by decide,
    claim4_invalid_no_resolver_call noAnswerResolver defaultRecordTypes
      (some "bad!domain") none (by decide)⟩

/-- Claim C5: on an existing domain, both the NoData outcome (resolver
NoAnswer) and the transient-fault outcome (any other resolver-level
fault) make fetch_record_type record an empty list for the tag, and the
aggregation loop continues with the remaining requested types instead of
aborting. -/
theorem claim5_nodata_fault_continue (r : Resolver) (w : String) (rt : RecordType)
    (rest : List RecordType) (acc : DNSDict) (ex : Bool)
    (h : (r w rt).isNoAnswer = true ∨ (r w rt).isFault = true) :
    fetch_record_type r w rt = some [] ∧
      runTypes r w (rt :: rest) acc ex =
        ((runTypes r w rest (dictInsert acc (recordKey rt) []) ex).1,
          rt :: (runTypes r w rest (dictInsert acc (recordKey rt) []) ex).2) := by
  have hf : fetch_record_type r w rt = some [] := by
    cases ho : r w rt with
    | success recs =>
      rw [ho] at h
      rcases h with h | h <;> simp [ResolveOutcome.isNoAnswer, ResolveOutcome.isFault] at h
    | nxdomain =>
      rw [ho] at h
      rcases h with h | h <;> simp [ResolveOutcome.isNoAnswer, ResolveOutcome.isFault] at h
    | noAnswer => simp [fetch_record_type, ho]
    | fault => simp [fetch_record_type, ho]
  refine ⟨hf, ?_⟩
  cases hrun : runTypes r w rest (dictInsert acc (recordKey rt) []) ex with
  | mk res tr => simp [runTypes, hf, hrun]

/-- Claim C5 witness: a NoAnswer fetch for the A type records an empty
list and the loop proceeds to the MX type. -/
theorem claim5_witness :
    fetch_record_type noAnswerResolver "example.com" .A = some [] ∧
      runTypes noAnswerResolver "example.com" [.A, .MX] [] false =
        ((runTypes noAnswerResolver "example.com" [.MX]
            (dictInsert [] (recordKey .A) []) false).1,
          .A :: (runTypes noAnswerResolver "example.com" [.MX]
            (dictInsert [] (recordKey .A) []) false).2) :=
  claim5_nodata_fault_continue noAnswerResolver "example.com" .A [.MX] [] false
    (Or.inl (by decide))

/-- Claim C6: for a valid resolvable domain where every requested type
yields the NoData outcome, the lookup result maps every requested tag to
an empty list with the domain_exists flag false (the FoundEmpty
outcome), and this is distinct from the DomainNotFound failure value
None; and whenever any tag of a returned mapping holds a non-empty
list, the flag is true (the Found outcome). -/
theorem claim6_found_empty (r : Resolver) (cfg : List RecordType)
    (website : Option String) (rts : Option (List RecordType)) (wd : String)
    (hclean : clean_domain website = some wd)
    (hval : validate_domain (some wd) = true)
    (hnodup : (effectiveTypes cfg rts).Nodup)
    (hall : ∀ rt ∈ effectiveTypes cfg rts, fetch_record_type r wd rt = some []) :
    get_dns_records_full r cfg website rts =
      some ((effectiveTypes cfg rts).map
          (fun rt => (recordKey rt, ([] : List DecodedRecord))), false) ∧
      get_dns_records r cfg website rts ≠ none ∧
      (∀ (r2 : Resolver) (cfg2 : List RecordType) (w2 : Option String)
          (rts2 : Option (List RecordType)) (d : DNSDict) (ex : Bool),
        get_dns_records_full r2 cfg2 w2 rts2 = some (d, ex) →
        ∀ p ∈ d, p.2 ≠ [] → ex = true) := by
  have hfetch : ∀ rt ∈ effectiveTypes cfg rts, fetch_record_type r wd rt ≠ none := by
    intro rt hrt
    rw [hall rt hrt]
    simp
  have hkeys : ((effectiveTypes cfg rts).map recordKey).Nodup :=
    hnodup.map recordKey_injective
  have htotal := runTypes_total r wd (effectiveTypes cfg rts) [] false hfetch hkeys
    (by simp)
  have hmap : (effectiveTypes cfg rts).map (fun rt => (recordKey rt, fetchVal r wd rt)) =
      (effectiveTypes cfg rts).map (fun rt => (recordKey rt, ([] : List DecodedRecord))) := by
    apply List.map_congr_left
    intro rt hrt
    rw [fetchVal, hall rt hrt]
    rfl
  have hany : (effectiveTypes cfg rts).any (fun rt => !(fetchVal r wd rt).isEmpty) = false := by
    rw [List.any_eq_false]
    intro rt hrt
    rw [fetchVal, hall rt hrt]
    simp
  have hfull : get_dns_records_full r cfg website rts =
      some ((effectiveTypes cfg rts).map
        (fun rt => (recordKey rt, ([] : List DecodedRecord))), false) := by
    rw [get_dns_records_full]
    simp only [get_dns_records_t, hclean, hval, if_true]
    rw [htotal]
    simp [hmap, hany]
  refine ⟨hfull, ?_, ?_⟩
  · rw [get_dns_records, hfull]
    simp
  · intro r2 cfg2 w2 rts2 d ex hres p hp hpne
    cases hc : clean_domain w2 with
    | none => simp [get_dns_records_full, get_dns_records_t, hc] at hres
    | some wd2 =>
      by_cases hv : validate_domain (some wd2) = true
      · simp only [get_dns_records_full, get_dns_records_t, hc, hv, if_true] at hres
        cases hrun : runTypes r2 wd2 (effectiveTypes cfg2 rts2) [] false with
        | mk res tr =>
          rw [hrun] at hres
          simp only at hres
          exact runTypes_nonempty_flag r2 wd2 (effectiveTypes cfg2 rts2) [] false d ex tr
            (by rw [hrun, hres]) (by simp) p hp hpne
      · simp [get_dns_records_full, get_dns_records_t, hc, hv] at hres

/-- Claim C6 witness: with an all-NoAnswer resolver and the default
request list, the result maps all seven tags to empty lists with the
flag false. -/
theorem claim6_witness :
    get_dns_records_full noAnswerResolver defaultRecordTypes (some "example.com") none =
      some ([("A_Records", []), ("AAAA_Records", []), ("CNAME_Records", []),
        ("MX_Records", []), ("NS_Records", []), ("TXT_Records", []),
        ("SOA_Records", [])], false) := by
  have h := claim6_found_empty noAnswerResolver defaultRecordTypes (some "example.com")
    none "example.com" (by decide) (by decide) (by decide) (fun rt _ => rfl)
  exact h.1.trans (by decide)

/-- Claim C7 counterexample: the claim says clean removes exactly the
first occurrence of the www-dot substring, and that an input with at
most one occurrence cleans to an output with none; but on a double
occurrence the code removes both, and on a single occurrence the
deletion can splice the surrounding characters into a fresh
occurrence. -/
theorem claim7_counterexample :
    clean_domain (some "www.www.example.com") = some "example.com" ∧
      removeFirstWww ("www.www.example.com".data) = "www.example.com".data ∧
      countWww ("wwwww.w.".data) = 1 ∧
      clean_domain (some "wwwww.w.") = some "www." ∧
      countWww ("www.".data) = 1 := by decide

/-- Claim C7 (amended): the www-step of clean deletes every
left-to-right non-overlapping occurrence of the www-dot substring,
anywhere in the string and not just as a prefix: the length drops by
exactly four per counted occurrence; but the deletion can splice
surrounding characters into a new occurrence, so even an input with a
single occurrence may clean to an output that still contains one. -/
theorem claim7_amended_replace_all :
    (∀ l : List Char, (replaceWww l).length + 4 * countWww l = l.length) ∧
      countWww ("wwwww.w.".data) = 1 ∧
      replaceWww ("wwwww.w.".data) = "www.".data := by
  refine ⟨replaceWww_length, by decide, by decide⟩

/-- Claim C8: for every successful lookup over a duplicate-free request
list (the requested types form an ordered set), the result mapping has
exactly one key per requested tag, named with the _Records suffix, and
the iteration order of the keys equals the request order. -/
theorem claim8_result_key_order (r : Resolver) (cfg : List RecordType)
    (website : Option String) (rts : Option (List RecordType)) (d : DNSDict) (ex : Bool)
    (hnodup : (effectiveTypes cfg rts).Nodup)
    (hres : get_dns_records_full r cfg website rts = some (d, ex)) :
    d.map Prod.fst = (effectiveTypes cfg rts).map recordKey := by
  cases hc : clean_domain website with
  | none => simp [get_dns_records_full, get_dns_records_t, hc] at hres
  | some wd =>
    by_cases hv : validate_domain (some wd) = true
    · simp only [get_dns_records_full, get_dns_records_t, hc, hv, if_true] at hres
      cases hrun : runTypes r wd (effectiveTypes cfg rts) [] false with
      | mk res tr =>
        rw [hrun] at hres
        simp only at hres
        have hfetch := runTypes_some_fetch r wd (effectiveTypes cfg rts) [] false
          (d, ex) tr (by rw [hrun, hres])
        have htotal := runTypes_total r wd (effectiveTypes cfg rts) [] false hfetch
          (hnodup.map recordKey_injective) (by simp)
        have hcomb := htotal.symm.trans hrun
        simp only [Prod.mk.injEq] at hcomb
        have h2 := Option.some.inj (hcomb.1.trans hres)
        have hd : d = (effectiveTypes cfg rts).map
            (fun rt => (recordKey rt, fetchVal r wd rt)) := by
          have h3 := congrArg Prod.fst h2
          simpa using h3.symm
        rw [hd, List.map_map]
        rfl
    · simp [get_dns_records_full, get_dns_records_t, hc, hv] at hres

/-- Claim C8 witness: default request list, all-NoAnswer resolver: the
keys come out in the requested order. -/
theorem claim8_witness :
    [("A_Records", ([] : List DecodedRecord)), ("AAAA_Records", []), ("CNAME_Records", []),
        ("MX_Records", []), ("NS_Records", []), ("TXT_Records", []),
        ("SOA_Records", [])].map Prod.fst =
      (effectiveTypes defaultRecordTypes none).map recordKey :=
  claim8_result_key_order noAnswerResolver defaultRecordTypes (some "example.com") none
    _ false (by decide) (by decide)

/-- Claim C9: get_dns_records returns the same failure value None both
when the cleaned domain fails validation and when the resolver reports
that the domain does not exist, so the caller cannot distinguish the two
failure classes from the returned value alone. -/
theorem claim9_failures_indistinguishable (r1 r2 : Resolver)
    (cfg1 cfg2 : List RecordType) (w1 w2 : Option String)
    (rts1 rts2 : Option (List RecordType)) (wd2 : String) (t : RecordType)
    (rest : List RecordType)
    (h1 : validate_domain (clean_domain w1) = false)
    (h2c : clean_domain w2 = some wd2)
    (h2v : validate_domain (some wd2) = true)
    (h2e : effectiveTypes cfg2 rts2 = t :: rest)
    (h2n : (r2 wd2 t).isNXDOMAIN = true) :
    get_dns_records r1 cfg1 w1 rts1 = none ∧
      get_dns_records r2 cfg2 w2 rts2 = none ∧
      get_dns_records r1 cfg1 w1 rts1 = get_dns_records r2 cfg2 w2 rts2 := by
  have ha := get_none_of_invalid r1 cfg1 w1 rts1 h1
  have hb := get_none_of_nxdomain r2 cfg2 w2 rts2 wd2 [] rest t h2c h2v
    (by simpa using h2e) (by simp) h2n
  have ha2 := get_eq_of_t r1 cfg1 w1 rts1 none [] ha
  have hb2 := get_eq_of_t r2 cfg2 w2 rts2 none [t] hb
  exact ⟨ha2, hb2, ha2.trans hb2.symm⟩

/-- Claim C9 witness: an invalid domain and an NXDOMAIN lookup return
equal values. -/
theorem claim9_witness :
    get_dns_records noAnswerResolver defaultRecordTypes (some "bad!domain") none = none ∧
      get_dns_records nxResolver defaultRecordTypes (some "example.com") none = none ∧
      get_dns_records noAnswerResolver defaultRecordTypes (some "bad!domain") none =
        get_dns_records nxResolver defaultRecordTypes (some "example.com") none :=
  claim9_failures_indistinguishable noAnswerResolver nxResolver defaultRecordTypes
    defaultRecordTypes (some "bad!domain") (some "example.com") none none "example.com"
    .A [.AAAA, .CNAME, .MX, .NS, .TXT, .SOA]
    (by decide) (by decide) (by decide) (by decide) (by decide)

/-- Claim C10: there is an input containing a character outside the
label grammar that validate accepts: the dollar anchor also matches just
before a string-final newline, so a grammatical domain followed by a
newline passes validation even though the newline is not a label
character. -/
theorem claim10_trailing_newline_accepted :
    validate_domain (some "google.com\n") = true ∧
      isLabelChar '\n' = false ∧ isAlnum '\n' = false := by decide
